import Mathlib

/-!
Shallow embedding of `src/app.py`, a single node of a peer-replicated
key-value cluster (Flask app).  The mutable module state (`data`,
`PEER_URLS`) is passed explicitly; the network is modelled by an
environment assigning to each peer URL the outcome of a `/replicate`
POST (`some c` = HTTP response with status `c`, `none` = transport
failure or timeout).  Each HTTP handler returns the new store, the
response, and the list of outbound replication requests it issued.
-/

set_option autoImplicit false

namespace CAP

/-- A JSON value as produced by Flask's `request.get_json()`.
Numbers are modelled by `Int` (the claims only involve integral
numbers). -/
inductive JVal where
  | null
  | bool (b : Bool)
  | num (n : Int)
  | str (s : String)
  | arr (elems : List JVal)
  | obj (fields : List (String × JVal))

mutual

/-- Structural equality of JSON values (Python `==` on parsed JSON). -/
def JVal.beq : JVal → JVal → Bool
  | .null, .null => true
  | .bool a, .bool b => a == b
  | .num a, .num b => a == b
  | .str a, .str b => a == b
  | .arr a, .arr b => JVal.beqList a b
  | .obj a, .obj b => JVal.beqFields a b
  | _, _ => false

def JVal.beqList : List JVal → List JVal → Bool
  | [], [] => true
  | x :: xs, y :: ys => JVal.beq x y && JVal.beqList xs ys
  | _, _ => false

def JVal.beqFields : List (String × JVal) → List (String × JVal) → Bool
  | [], [] => true
  | (k₁, v₁) :: xs, (k₂, v₂) :: ys => k₁ == k₂ && JVal.beq v₁ v₂ && JVal.beqFields xs ys
  | _, _ => false

end

/-- Python truthiness of a JSON value (`bool(x)`): `None`, `False`, `0`,
`""`, `[]` and `{}` are falsy, everything else is truthy. -/
def truthy : JVal → Bool
  | .null => false
  | .bool b => b
  | .num n => n != 0
  | .str s => s != ""
  | .arr l => !l.isEmpty
  | .obj l => !l.isEmpty

/-- Python `x is None` on a parsed JSON value. -/
def JVal.isNull : JVal → Bool
  | .null => true
  | _ => false

/-- Whether a parsed JSON value is hashable in Python: scalars are,
`list` and `dict` (arrays and objects) are not.  `data[key] = value`
raises `TypeError` on an unhashable key — an error path the total
`storePut` below does not model, so statements about a write that
reaches the store restrict the key to hashable values. -/
def hashable : JVal → Bool
  | .arr _ => false
  | .obj _ => false
  | _ => true

/-- A parsed JSON object (Python `dict`), as an association list. -/
abbrev Dict := List (String × JVal)

/-- Python `d.get(k)`: the value at `k`, or `None` when absent. -/
def dictGet (d : Dict) (k : String) : JVal :=
  match d.find? (fun p => p.1 == k) with
  | some p => p.2
  | none => .null

/-- The in-memory store `data`: a Python dict from (hashable) JSON keys
to JSON values, as an insertion-ordered association list. -/
abbrev Store := List (JVal × JVal)

/-- `key in data` / `data[key]` read path. -/
def storeGet (s : Store) (k : JVal) : Option JVal :=
  match s.find? (fun p => JVal.beq p.1 k) with
  | some p => some p.2
  | none => none

/-- `data[key] = value`: overwrite in place when the key is present,
append otherwise (Python dict insertion-order semantics). -/
def storePut (s : Store) (k v : JVal) : Store :=
  if s.any (fun p => JVal.beq p.1 k) then
    s.map (fun p => if JVal.beq p.1 k then (p.1, v) else p)
  else
    s ++ [(k, v)]

/-- One outbound replication request: the target peer URL and the
`{key, value}` payload POSTed to its `/replicate` endpoint. -/
abbrev RepCall := String × JVal × JVal

/-- `replicate_write` (eventual path): fire-and-forget POST of
`{key, value}` to every peer; per-peer exceptions are caught and only
logged.  The model records the requests issued; outcomes are
discarded. -/
def replicate_write (peers : List String) (key value : JVal) : List RepCall :=
  peers.map (fun url => (url, key, value))

/-- One iteration of `send_request` inside
`replicate_write_synchronous`: on an HTTP 200 response append `True`
to the shared `results` list, on any other status or any transport
exception append nothing. -/
def send_request (env : String → Option Nat) (url : String) (results : List Bool) :
    List Bool :=
  match env url with
  | some code => if code == 200 then results ++ [true] else results
  | none => results

/-- `replicate_write_synchronous` (strong path): POST `{key, value}` to
every peer, join all threads, and return `len(results)` — the number
of acknowledgements collected. -/
def replicate_write_synchronous (peers : List String) (env : String → Option Nat)
    (key value : JVal) : Nat :=
  (peers.foldl (fun results url => send_request env url results) []).length

/-- The requests issued by the synchronous fan-out: one POST per peer,
regardless of outcome. -/
def sync_calls (peers : List String) (key value : JVal) : List RepCall :=
  peers.map (fun url => (url, key, value))

/-- The hardcoded quorum constant of `handle_write`'s strong branch. -/
def quorum : Nat := 1

/-- The responses `handle_write` can produce, with their HTTP codes. -/
inductive WResp where
  /-- 400 "Invalid JSON": `get_json`/`.get` raised. -/
  | invalidJson
  /-- 400 "Missing key or value". -/
  | invalidInput
  /-- 200 "Write committed with strong consistency". -/
  | strongCommit
  /-- 503 "Could not achieve quorum.". -/
  | quorumNotMet
  /-- 200 "Write accepted" (eventual path). -/
  | eventualCommit
  deriving DecidableEq

/-- The HTTP status code attached to each write response. -/
def WResp.httpCode : WResp → Nat
  | .invalidJson => 400
  | .invalidInput => 400
  | .strongCommit => 200
  | .quorumNotMet => 503
  | .eventualCommit => 200

/-- Result of one `handle_write` call: the store afterwards, the
response, and the outbound replication requests issued. -/
structure WriteOut where
  store : Store
  resp : WResp
  calls : List RepCall

/-- `handle_write` (`POST /kv`).  `body` is `none` when
`request.get_json()` or the subsequent `.get` calls raise (non-JSON or
non-object payload); `consistencyParam` is the `consistency` query
parameter, read via `request.args.get('consistency', 'eventual')`. -/
def handle_write (store : Store) (peers : List String) (env : String → Option Nat)
    (body : Option Dict) (consistencyParam : Option String) : WriteOut :=
  match body with
  | none => ⟨store, .invalidJson, []⟩
  | some d =>
    let key := dictGet d "key"
    let value := dictGet d "value"
    if !truthy key || value.isNull then
      ⟨store, .invalidInput, []⟩
    else
      let consistency := consistencyParam.getD "eventual"
      if consistency == "strong" then
        let acks := replicate_write_synchronous peers env key value
        if acks ≥ quorum then
          ⟨storePut store key value, .strongCommit, sync_calls peers key value⟩
        else
          ⟨store, .quorumNotMet, sync_calls peers key value⟩
      else
        ⟨storePut store key value, .eventualCommit, replicate_write peers key value⟩

/-- The responses `handle_replication` can produce. -/
inductive RResp where
  /-- 200 `{"status": "success"}`. -/
  | success
  /-- 400 "Invalid replication data": an exception was raised. -/
  | invalidData
  deriving DecidableEq

/-- Result of one `handle_replication` call. -/
structure RepOut where
  store : Store
  resp : RResp
  calls : List RepCall

/-- `handle_replication` (`POST /replicate`), the replication receiver.
`body` is `none` when parsing the payload raises (the `except` branch).
Note the source applies `data[key] = value` without validating that the
`key`/`value` fields are present: `dict.get` silently yields `None`. -/
def handle_replication (store : Store) (body : Option Dict) : RepOut :=
  match body with
  | none => ⟨store, .invalidData, []⟩
  | some d =>
    let key := dictGet d "key"
    let value := dictGet d "value"
    ⟨storePut store key value, .success, []⟩

/-- The responses `handle_read` can produce. -/
inductive ReadResp where
  /-- 200 `{"key": key, "value": value}`. -/
  | found (v : JVal)
  /-- 404 "Key not found". -/
  | notFound

/-- `handle_read` (`GET /kv/<key>`): the local read path; `key` is a
string taken from the URL. -/
def handle_read (store : Store) (key : String) : ReadResp :=
  match storeGet store (.str key) with
  | some v => .found v
  | none => .notFound

/-! ### Basic lemmas about JSON equality and the store -/

mutual

theorem JVal.beq_refl : (a : JVal) → JVal.beq a a = true
  | .null => by simp [JVal.beq]
  | .bool b => by simp [JVal.beq]
  | .num n => by simp [JVal.beq]
  | .str s => by simp [JVal.beq]
  | .arr l => by simp [JVal.beq, JVal.beqList_refl l]
  | .obj l => by simp [JVal.beq, JVal.beqFields_refl l]

theorem JVal.beqList_refl : (l : List JVal) → JVal.beqList l l = true
  | [] => by simp [JVal.beqList]
  | x :: xs => by simp [JVal.beqList, JVal.beq_refl x, JVal.beqList_refl xs]

theorem JVal.beqFields_refl : (l : List (String × JVal)) → JVal.beqFields l l = true
  | [] => by simp [JVal.beqFields]
  | (k, v) :: xs => by simp [JVal.beqFields, JVal.beq_refl v, JVal.beqFields_refl xs]

end

theorem JVal.isNull_eq_false {v : JVal} (h : v ≠ JVal.null) : v.isNull = false := by
  cases v <;> simp [JVal.isNull] at h ⊢

theorem truthy_str {s : String} (h : s ≠ "") : truthy (JVal.str s) = true := by
  simp [truthy, h]

/-- Overwriting an entry does not change the keys, so the membership
test of `storePut` is stable under the overwrite map. -/
theorem any_key_map (s : Store) (k v : JVal) :
    (s.map (fun p => if JVal.beq p.1 k then (p.1, v) else p)).any
        (fun p => JVal.beq p.1 k) =
      s.any (fun p => JVal.beq p.1 k) := by
  induction s with
  | nil => rfl
  | cons p rest ih =>
    by_cases h : JVal.beq p.1 k = true <;> simp [h, ih]

/-- The overwrite map of `storePut` is idempotent. -/
theorem map_overwrite_idem (s : Store) (k v : JVal) :
    (s.map (fun p => if JVal.beq p.1 k then (p.1, v) else p)).map
        (fun p => if JVal.beq p.1 k then (p.1, v) else p) =
      s.map (fun p => if JVal.beq p.1 k then (p.1, v) else p) := by
  induction s with
  | nil => rfl
  | cons p rest ih =>
    by_cases h : JVal.beq p.1 k = true <;> simp [h, ih]

/-- When no entry matches `k`, the overwrite map changes nothing. -/
theorem map_overwrite_of_not_mem (s : Store) (k v : JVal)
    (h : s.any (fun p => JVal.beq p.1 k) = false) :
    s.map (fun p => if JVal.beq p.1 k then (p.1, v) else p) = s := by
  induction s with
  | nil => rfl
  | cons p rest ih =>
    simp only [List.any_cons, Bool.or_eq_false_iff] at h
    simp [h.1, ih h.2]

/-- When no entry of `s` matches `k`, `find?` looks past `s`. -/
theorem find?_append_of_not_mem (s l : Store) (k : JVal)
    (h : s.any (fun p => JVal.beq p.1 k) = false) :
    (s ++ l).find? (fun p => JVal.beq p.1 k) = l.find? (fun p => JVal.beq p.1 k) := by
  induction s with
  | nil => rfl
  | cons p rest ih =>
    simp only [List.any_cons, Bool.or_eq_false_iff] at h
    simp [List.find?, h.1, ih h.2]

/-- After the overwrite map, the first entry matching `k` holds `v`. -/
theorem find?_map_overwrite (s : Store) (k v : JVal)
    (h : s.any (fun p => JVal.beq p.1 k) = true) :
    ∃ k', (s.map (fun p => if JVal.beq p.1 k then (p.1, v) else p)).find?
        (fun p => JVal.beq p.1 k) = some (k', v) := by
  induction s with
  | nil => simp at h
  | cons p rest ih =>
    by_cases hp : JVal.beq p.1 k = true
    · exact ⟨p.1, by simp [List.find?, hp]⟩
    · rw [Bool.not_eq_true] at hp
      rw [List.any_cons, hp, Bool.false_or] at h
      obtain ⟨k', hk'⟩ := ih h
      refine ⟨k', ?_⟩
      have hfp : (if JVal.beq p.1 k = true then (p.1, v) else p) = p := by
        rw [hp]
        exact if_neg Bool.false_ne_true
      rw [List.map_cons, hfp, List.find?_cons_of_neg _ (by rw [hp]; exact Bool.false_ne_true), hk']

/-- `data[key] = value` followed by a read of `key` yields `value`. -/
theorem storeGet_storePut_self (s : Store) (k v : JVal) :
    storeGet (storePut s k v) k = some v := by
  unfold storePut storeGet
  by_cases h : s.any (fun p => JVal.beq p.1 k) = true
  · obtain ⟨k', hk'⟩ := find?_map_overwrite s k v h
    simp [h, hk']
  · rw [Bool.not_eq_true] at h
    rw [if_neg (by simp [h]), find?_append_of_not_mem s _ k h]
    simp [List.find?, JVal.beq_refl k]

/-- After `data[key] = value`, the key `k` is present in the store. -/
theorem storePut_any (s : Store) (k v : JVal) :
    (storePut s k v).any (fun p => JVal.beq p.1 k) = true := by
  unfold storePut
  by_cases h : s.any (fun p => JVal.beq p.1 k) = true
  · rw [if_pos h, any_key_map]
    exact h
  · rw [if_neg h, List.any_append]
    simp only [List.any_cons, List.any_nil, JVal.beq_refl k, Bool.or_false, Bool.or_true]

/-- The overwrite map of a repeated `storePut` fixes its own output. -/
theorem map_overwrite_storePut (s : Store) (k v : JVal) :
    (storePut s k v).map (fun p => if JVal.beq p.1 k then (p.1, v) else p) =
      storePut s k v := by
  unfold storePut
  by_cases h : s.any (fun p => JVal.beq p.1 k) = true
  · rw [if_pos h]
    exact map_overwrite_idem s k v
  · rw [if_neg h]
    rw [Bool.not_eq_true] at h
    rw [List.map_append, map_overwrite_of_not_mem s k v h]
    simp

/-- `data[key] = value` is idempotent. -/
theorem storePut_idem (s : Store) (k v : JVal) :
    storePut (storePut s k v) k v = storePut s k v := by
  have h := storePut_any s k v
  have hm := map_overwrite_storePut s k v
  generalize hs : storePut s k v = t at h hm ⊢
  unfold storePut
  rw [if_pos h, hm]

/-! ### Unfolding and branch lemmas for the write coordinator -/

/-- `handle_write` on a parsed JSON object, unfolded. -/
theorem handle_write_some (store : Store) (peers : List String) (env : String → Option Nat)
    (d : Dict) (copt : Option String) :
    handle_write store peers env (some d) copt =
      if !truthy (dictGet d "key") || (dictGet d "value").isNull then
        ⟨store, .invalidInput, []⟩
      else if copt.getD "eventual" == "strong" then
        if replicate_write_synchronous peers env (dictGet d "key") (dictGet d "value") ≥ quorum then
          ⟨storePut store (dictGet d "key") (dictGet d "value"), .strongCommit,
            sync_calls peers (dictGet d "key") (dictGet d "value")⟩
        else
          ⟨store, .quorumNotMet, sync_calls peers (dictGet d "key") (dictGet d "value")⟩
      else
        ⟨storePut store (dictGet d "key") (dictGet d "value"), .eventualCommit,
          replicate_write peers (dictGet d "key") (dictGet d "value")⟩ := rfl

theorem dictGet_pair_key (kv v : JVal) :
    dictGet [("key", kv), ("value", v)] "key" = kv := rfl

theorem dictGet_pair_value (kv v : JVal) :
    dictGet [("key", kv), ("value", v)] "value" = v := rfl

/-- A truthy key together with a non-null value passes validation. -/
theorem valid_cond {kv v : JVal} (htr : truthy kv = true) (hv : v ≠ JVal.null) :
    (!truthy kv || v.isNull) = false := by
  rw [htr, JVal.isNull_eq_false hv]
  rfl

/-- Strong branch, quorum reached: the write is applied and committed. -/
theorem handle_write_strong_commit (store : Store) (peers : List String)
    (env : String → Option Nat) (kv v : JVal)
    (htr : truthy kv = true) (hv : v ≠ JVal.null)
    (hq : quorum ≤ replicate_write_synchronous peers env kv v) :
    handle_write store peers env (some [("key", kv), ("value", v)]) (some "strong") =
      ⟨storePut store kv v, .strongCommit, sync_calls peers kv v⟩ := by
  rw [handle_write_some, dictGet_pair_key, dictGet_pair_value, valid_cond htr hv,
    if_neg Bool.false_ne_true,
    if_pos (show (((some "strong" : Option String).getD "eventual" == "strong") = true) from rfl),
    if_pos hq]

/-- Strong branch, quorum missed: the write is rejected untouched. -/
theorem handle_write_strong_reject (store : Store) (peers : List String)
    (env : String → Option Nat) (kv v : JVal)
    (htr : truthy kv = true) (hv : v ≠ JVal.null)
    (hq : replicate_write_synchronous peers env kv v < quorum) :
    handle_write store peers env (some [("key", kv), ("value", v)]) (some "strong") =
      ⟨store, .quorumNotMet, sync_calls peers kv v⟩ := by
  rw [handle_write_some, dictGet_pair_key, dictGet_pair_value, valid_cond htr hv,
    if_neg Bool.false_ne_true,
    if_pos (show (((some "strong" : Option String).getD "eventual" == "strong") = true) from rfl),
    if_neg (Nat.not_le.mpr hq)]

/-- Eventual branch: the write is applied and committed unconditionally. -/
theorem handle_write_eventual (store : Store) (peers : List String)
    (env : String → Option Nat) (kv v : JVal) (copt : Option String)
    (htr : truthy kv = true) (hv : v ≠ JVal.null)
    (hc : copt.getD "eventual" ≠ "strong") :
    handle_write store peers env (some [("key", kv), ("value", v)]) copt =
      ⟨storePut store kv v, .eventualCommit, replicate_write peers kv v⟩ := by
  rw [handle_write_some, dictGet_pair_key, dictGet_pair_value, valid_cond htr hv,
    if_neg Bool.false_ne_true]
  rw [show (copt.getD "eventual" == "strong") = false from beq_eq_false_iff_ne.mpr hc,
    if_neg Bool.false_ne_true]

/-- A failed validation rejects with `InvalidInput` before anything else. -/
theorem handle_write_invalid (store : Store) (peers : List String)
    (env : String → Option Nat) (d : Dict) (copt : Option String)
    (hcond : (!truthy (dictGet d "key") || (dictGet d "value").isNull) = true) :
    handle_write store peers env (some d) copt = ⟨store, .invalidInput, []⟩ := by
  rw [handle_write_some, hcond, if_pos rfl]

/-- The `results` list built by the synchronous fan-out grows by exactly
one entry per peer whose POST came back with status 200. -/
theorem foldl_send_request_length (env : String → Option Nat) (peers : List String)
    (acc : List Bool) :
    (peers.foldl (fun results url => send_request env url results) acc).length =
      acc.length + peers.countP (fun u => decide (env u = some 200)) := by
  induction peers generalizing acc with
  | nil => simp
  | cons u rest ih =>
    rw [List.foldl_cons, ih, List.countP_cons]
    cases henv : env u with
    | none => simp [send_request, henv]
    | some c =>
      by_cases hc : c = 200 <;> (simp [send_request, henv, hc]; try omega)

/-! ### The claims -/

/-- C1: the spec says a replication payload with a missing `key` or
`value` field is rejected with `InvalidInput` and the store is left
unchanged.  The code does neither: `dict.get` silently returns `None`
for a missing field, so on the payload `{"key": "a"}` the receiver
stores `None` under `"a"`, mutates the store, and answers success. -/
theorem claim_C1_receiver_applies_malformed_payload :
    (handle_replication [] (some [("key", JVal.str "a")])).resp = RResp.success ∧
    (handle_replication [] (some [("key", JVal.str "a")])).store =
      [(JVal.str "a", JVal.null)] ∧
    [(JVal.str "a", JVal.null)] ≠ ([] : Store) :=
  ⟨rfl, rfl, fun h => List.noConfusion h⟩

/-- C2: a valid strong write acknowledged by fewer than quorum peers is
rejected with `QuorumNotMet` under a service-unavailable-class response
(HTTP 503), the Local Store is not mutated, and a subsequent local read
of the key returns exactly what it returned before the attempt. -/
theorem claim_C2_strong_write_quorum_not_met (store : Store) (peers : List String)
    (env : String → Option Nat) (k : String) (v : JVal)
    (hk : k ≠ "") (hv : v ≠ JVal.null)
    (hq : replicate_write_synchronous peers env (JVal.str k) v < quorum) :
    handle_write store peers env (some [("key", JVal.str k), ("value", v)]) (some "strong") =
      ⟨store, WResp.quorumNotMet, sync_calls peers (JVal.str k) v⟩ ∧
    WResp.quorumNotMet.httpCode = 503 ∧
    handle_read (handle_write store peers env (some [("key", JVal.str k), ("value", v)])
        (some "strong")).store k = handle_read store k := by
  have h := handle_write_strong_reject store peers env (JVal.str k) v (truthy_str hk) hv hq
  exact ⟨h, rfl, by rw [h]⟩

/-- Witness for C2: strong write of `{"y": "2"}` with every peer
unreachable is rejected and the store stays empty. -/
theorem claim_C2_witness :
    handle_write [] [] (fun _ => none)
        (some [("key", JVal.str "y"), ("value", JVal.str "2")]) (some "strong") =
      ⟨[], WResp.quorumNotMet, []⟩ ∧
    WResp.quorumNotMet.httpCode = 503 ∧
    handle_read (handle_write [] [] (fun _ => none)
        (some [("key", JVal.str "y"), ("value", JVal.str "2")]) (some "strong")).store "y" =
      handle_read [] "y" :=
  claim_C2_strong_write_quorum_not_met [] [] (fun _ => none) "y" (JVal.str "2")
    (by decide) (fun h => JVal.noConfusion h) Nat.zero_lt_one

/-- C3: a valid strong write acknowledged by at least quorum peers is
applied to the Local Store and committed, and an immediately subsequent
local read of the key returns the written value. -/
theorem claim_C3_strong_write_commit (store : Store) (peers : List String)
    (env : String → Option Nat) (k : String) (v : JVal)
    (hk : k ≠ "") (hv : v ≠ JVal.null)
    (hq : quorum ≤ replicate_write_synchronous peers env (JVal.str k) v) :
    handle_write store peers env (some [("key", JVal.str k), ("value", v)]) (some "strong") =
      ⟨storePut store (JVal.str k) v, WResp.strongCommit, sync_calls peers (JVal.str k) v⟩ ∧
    handle_read (handle_write store peers env (some [("key", JVal.str k), ("value", v)])
        (some "strong")).store k = ReadResp.found v := by
  have h := handle_write_strong_commit store peers env (JVal.str k) v (truthy_str hk) hv hq
  refine ⟨h, ?_⟩
  rw [h]
  show handle_read (storePut store (JVal.str k) v) k = ReadResp.found v
  unfold handle_read
  rw [storeGet_storePut_self]

/-- Witness for C3: strong write of `{"x": "1"}` with one acknowledging
peer commits and the local read returns `"1"`. -/
theorem claim_C3_witness :
    handle_write [] ["node2"] (fun _ => some 200)
        (some [("key", JVal.str "x"), ("value", JVal.str "1")]) (some "strong") =
      ⟨[(JVal.str "x", JVal.str "1")], WResp.strongCommit,
        [("node2", JVal.str "x", JVal.str "1")]⟩ ∧
    handle_read (handle_write [] ["node2"] (fun _ => some 200)
        (some [("key", JVal.str "x"), ("value", JVal.str "1")]) (some "strong")).store "x" =
      ReadResp.found (JVal.str "1") :=
  claim_C3_strong_write_commit [] ["node2"] (fun _ => some 200) "x" (JVal.str "1")
    (by decide) (fun h => JVal.noConfusion h) (Nat.le_refl 1)

/-- C4: a valid eventual write (consistency unspecified or not
`"strong"`) is applied to the Local Store and committed unconditionally
— the outcome is the same whatever the peer environment, so replication
failures never surface and never roll back the local write — and an
immediately subsequent local read of the key returns the value. -/
theorem claim_C4_eventual_write_commit (store : Store) (peers : List String)
    (env : String → Option Nat) (k : String) (v : JVal) (copt : Option String)
    (hk : k ≠ "") (hv : v ≠ JVal.null) (hc : copt.getD "eventual" ≠ "strong") :
    handle_write store peers env (some [("key", JVal.str k), ("value", v)]) copt =
      ⟨storePut store (JVal.str k) v, WResp.eventualCommit,
        replicate_write peers (JVal.str k) v⟩ ∧
    WResp.eventualCommit.httpCode = 200 ∧
    handle_read (handle_write store peers env (some [("key", JVal.str k), ("value", v)])
        copt).store k = ReadResp.found v := by
  have h := handle_write_eventual store peers env (JVal.str k) v copt (truthy_str hk) hv hc
  refine ⟨h, rfl, ?_⟩
  rw [h]
  show handle_read (storePut store (JVal.str k) v) k = ReadResp.found v
  unfold handle_read
  rw [storeGet_storePut_self]

/-- Witness for C4: eventual write of `{"z": "3"}` with every peer
unreachable still commits and the local read returns `"3"`. -/
theorem claim_C4_witness :
    handle_write [] ["node1", "node2"] (fun _ => none)
        (some [("key", JVal.str "z"), ("value", JVal.str "3")]) none =
      ⟨[(JVal.str "z", JVal.str "3")], WResp.eventualCommit,
        [("node1", JVal.str "z", JVal.str "3"), ("node2", JVal.str "z", JVal.str "3")]⟩ ∧
    WResp.eventualCommit.httpCode = 200 ∧
    handle_read (handle_write [] ["node1", "node2"] (fun _ => none)
        (some [("key", JVal.str "z"), ("value", JVal.str "3")]) none).store "z" =
      ReadResp.found (JVal.str "3") :=
  claim_C4_eventual_write_commit [] ["node1", "node2"] (fun _ => none) "z" (JVal.str "3")
    none (by decide) (fun h => JVal.noConfusion h) (by decide)

/-- C5: a write whose key is missing or empty, or whose value is null,
is rejected with `InvalidInput` (HTTP 400, a client-error-class
response); the store is returned unchanged and the list of issued
replication requests is empty. -/
theorem claim_C5_invalid_input (store : Store) (peers : List String)
    (env : String → Option Nat) (d : Dict) (copt : Option String)
    (h : dictGet d "key" = JVal.null ∨ dictGet d "key" = JVal.str "" ∨
      dictGet d "value" = JVal.null) :
    handle_write store peers env (some d) copt = ⟨store, WResp.invalidInput, []⟩ ∧
    WResp.invalidInput.httpCode = 400 := by
  refine ⟨handle_write_invalid store peers env d copt ?_, rfl⟩
  rcases h with h | h | h <;> rw [h] <;> simp [truthy, JVal.isNull]

/-- Witness for C5: a write with no `key` field is rejected even though
a reachable, acknowledging peer is configured — zero calls issued. -/
theorem claim_C5_witness :
    handle_write [] ["node2"] (fun _ => some 200) (some [("value", JVal.str "x")]) none =
      ⟨[], WResp.invalidInput, []⟩ ∧
    WResp.invalidInput.httpCode = 400 :=
  claim_C5_invalid_input [] ["node2"] (fun _ => some 200) [("value", JVal.str "x")] none
    (Or.inl rfl)

/-- C6: the synchronous fan-out counts a peer as acknowledging exactly
when its `/replicate` POST came back with the success status 200; any
transport failure, timeout (`env u = none`) or non-200 status is not
counted, so the returned count is exactly the number of peers that
responded with success. -/
theorem claim_C6_ack_count (peers : List String) (env : String → Option Nat)
    (key value : JVal) :
    replicate_write_synchronous peers env key value =
      peers.countP (fun u => decide (env u = some 200)) := by
  unfold replicate_write_synchronous
  rw [foldl_send_request_length]
  simp

/-- C7: the replication receiver is idempotent on the Local Store —
handling the same `ReplicateIn` payload twice in succession leaves the
store in exactly the state reached after handling it once. -/
theorem claim_C7_replicate_idempotent (store : Store) (body : Option Dict) :
    (handle_replication (handle_replication store body).store body).store =
      (handle_replication store body).store := by
  cases body with
  | none => rfl
  | some d => exact storePut_idem store (dictGet d "key") (dictGet d "value")

/-- C8: the replication receiver never triggers outbound replication:
for every inbound payload it issues zero requests toward peers, so
propagation is bounded to exactly one hop. -/
theorem claim_C8_no_rebroadcast (store : Store) (body : Option Dict) :
    (handle_replication store body).calls = [] := by
  cases body <;> rfl

/-- C9: in a zero-peer deployment, every valid strong write is
rejected: the acknowledgement count is 0, which never reaches the fixed
quorum of 1, so the write returns `QuorumNotMet` with the store
unchanged. -/
theorem claim_C9_zero_peer_strong_reject (store : Store) (env : String → Option Nat)
    (k : String) (v : JVal) (hk : k ≠ "") (hv : v ≠ JVal.null) :
    quorum = 1 ∧
    replicate_write_synchronous [] env (JVal.str k) v = 0 ∧
    handle_write store [] env (some [("key", JVal.str k), ("value", v)]) (some "strong") =
      ⟨store, WResp.quorumNotMet, []⟩ :=
  ⟨rfl, rfl,
    handle_write_strong_reject store [] env (JVal.str k) v (truthy_str hk) hv Nat.zero_lt_one⟩

/-- Witness for C9: with no peers, even an all-acknowledging network
environment cannot save a strong write from rejection. -/
theorem claim_C9_witness :
    quorum = 1 ∧
    replicate_write_synchronous [] (fun _ => some 200) (JVal.str "k") (JVal.num 1) = 0 ∧
    handle_write [] [] (fun _ => some 200)
        (some [("key", JVal.str "k"), ("value", JVal.num 1)]) (some "strong") =
      ⟨[], WResp.quorumNotMet, []⟩ :=
  claim_C9_zero_peer_strong_reject [] (fun _ => some 200) "k" (JVal.num 1)
    (by decide) (fun h => JVal.noConfusion h)

/-- C10: the write boundary's key check is Python truthiness, not
presence: a present but falsy key (`0`, `false`, `""`, `[]`, `{}` are
exactly the falsy JSON values) is rejected as `InvalidInput` with the
store unchanged and no peer calls, while a present falsy non-null value
passes validation and is stored (shown on the eventual branch).  The
stored-value conjunct restricts the key to truthy hashable values: a
truthy array or object key passes validation but then aborts with an
uncaught `TypeError` at `data[key] = value`, a path outside this
model's total `storePut`. -/
theorem claim_C10_truthiness_gate (store : Store) (peers : List String)
    (env : String → Option Nat) (copt : Option String) (kv v : JVal) :
    (truthy kv = false →
      handle_write store peers env (some [("key", kv), ("value", v)]) copt =
        ⟨store, WResp.invalidInput, []⟩) ∧
    (truthy kv = true → hashable kv = true → v ≠ JVal.null →
      copt.getD "eventual" ≠ "strong" →
      handle_write store peers env (some [("key", kv), ("value", v)]) copt =
        ⟨storePut store kv v, WResp.eventualCommit, replicate_write peers kv v⟩ ∧
      storeGet (storePut store kv v) kv = some v) := by
  constructor
  · intro hf
    refine handle_write_invalid store peers env _ copt ?_
    rw [dictGet_pair_key, dictGet_pair_value, hf]
    rfl
  · intro ht _hh hv hc
    exact ⟨handle_write_eventual store peers env kv v copt ht hv hc,
      storeGet_storePut_self store kv v⟩

/-- Witness for C10: the falsy key `0` is rejected though a value is
present; the falsy value `false` under the key `"k"` is stored. -/
theorem claim_C10_witness :
    handle_write [] ["node2"] (fun _ => some 200)
        (some [("key", JVal.num 0), ("value", JVal.str "x")]) none =
      ⟨[], WResp.invalidInput, []⟩ ∧
    (handle_write [] ["node2"] (fun _ => some 200)
        (some [("key", JVal.str "k"), ("value", JVal.bool false)]) none =
      ⟨[(JVal.str "k", JVal.bool false)], WResp.eventualCommit,
        [("node2", JVal.str "k", JVal.bool false)]⟩ ∧
      storeGet [(JVal.str "k", JVal.bool false)] (JVal.str "k") = some (JVal.bool false)) :=
  ⟨(claim_C10_truthiness_gate [] ["node2"] (fun _ => some 200) none (JVal.num 0)
      (JVal.str "x")).1 rfl,
    (claim_C10_truthiness_gate [] ["node2"] (fun _ => some 200) none (JVal.str "k")
      (JVal.bool false)).2 rfl rfl (fun h => JVal.noConfusion h) (by decide)⟩

end CAP
